import Mathlib

/-!
Verification of the questionnaire orchestration core.

Shallow embedding of the Python sources:
 * services/dynamic_question_resolver.py
 * services/section_analyzer.py
 * services/prediction_context.py
 * activities/section_analysis.py
 * workflows/section_workflow.py
 * workflows/questionnaire_workflow.py

Dynamic (duck-typed) JSON-ish values are modelled by the inductive type
`Answer`; Python dicts are modelled as insertion-ordered association lists
with overwrite-on-assignment (`dictSet`); Python sets are modelled as
duplicate-free lists in insertion order (set iteration order is
unspecified in Python, and every property proved below only depends on the
underlying finite set of elements).
-/

namespace RG

/-- A dynamic answer value: a JSON-ish value as produced by the prediction
layer.  `str` is a Python string, `list` a Python list, `dict` a Python
dict (association list of fields), and `other` stands for any other
Python value (numbers, `None`, ...). -/
inductive Answer where
  | str : String → Answer
  | list : List Answer → Answer
  | dict : List (String × Answer) → Answer
  | other : Answer

/-- An option of a single/multi choice question: `label` models
`option.get('label')` (absent key gives `none`), `next` models the
optional reveal-edge list `option['next']`. -/
structure QOption where
  label : Option String
  next : Option (List String)
deriving DecidableEq

/-- A question record as read from Questions.json.  Optional fields model
presence/absence of the corresponding dict keys in the Python source
(`'next' in question`, `question.get('type')`, ...). -/
structure Question where
  id : String
  type : Option String
  title : Option String
  options : Option (List QOption)
  next : Option (List String)
deriving DecidableEq

/-! ### Python dict / set primitives -/

/-- Membership test for a Python dict modelled as an association list. -/
def dictContains (d : List (String × α)) (k : String) : Bool :=
  d.any (fun p => p.1 == k)

/-- `d.get(k)` on a Python dict: the value stored at key `k`, if any. -/
def dictGet? (d : List (String × α)) (k : String) : Option α :=
  (d.find? (fun p => p.1 == k)).map (fun p => p.2)

/-- `d.get(k, dflt)` on a Python dict. -/
def dictGetD (d : List (String × α)) (k : String) (dflt : α) : α :=
  (dictGet? d k).getD dflt

/-- `d[k] = v` on a Python dict: overwrite the value in place at the
(unique) occurrence of the key if present, append otherwise (dicts
preserve insertion order). -/
def dictSet : List (String × α) → String → α → List (String × α)
  | [], k, v => [(k, v)]
  | p :: rest, k, v => if p.1 == k then (k, v) :: rest else p :: dictSet rest k v

/-- `d.update(u)` on a Python dict. -/
def dictUpdateAll (d u : List (String × α)) : List (String × α) :=
  u.foldl (fun acc p => dictSet acc p.1 p.2) d

/-- `list(dict.fromkeys(l))`: remove duplicates keeping the first
occurrence of each element, preserving order. -/
def dedupFirst : List String → List String :=
  go []
where
  /-- Worker carrying the set of already seen elements. -/
  go : List String → List String → List String
  | _, [] => []
  | seen, x :: xs => if x ∈ seen then go seen xs else x :: go (x :: seen) xs

/-- Insert every element of `l` into the Python set `acc` (modelled as a
duplicate-free list in insertion order); `acc.update(l)`. -/
def setUnionList (acc l : List String) : List String :=
  l.foldl (fun a x => if x ∈ a then a else a ++ [x]) acc

/-! ### Dependency resolver (services/dynamic_question_resolver.py) -/

/-- `self.questions_by_id.get(question_id)`: the dict comprehension keeps
the last question with a given id, so lookup returns the last match. -/
def lookupQuestion (qs : List Question) (qid : String) : Option Question :=
  qs.reverse.find? (fun q => q.id == qid)

/-- Python `==` between an option label (`option.get('label')`, possibly
absent) and a dynamic answer value.  Only a present label compared with a
string can be equal; comparisons with non-string values are `False`. -/
def pyEqLabel (lab : Option String) (a : Answer) : Bool :=
  match lab, a with
  | some s, .str t => s == t
  | _, _ => false

/-- The option scan of `_resolve_single_choice`: find the first option
whose label equals the answer; on a match return its `next` list if it
has one and stop (`break`) otherwise. -/
def scanOptions : List QOption → Answer → List String
  | [], _ => []
  | o :: rest, a =>
    if pyEqLabel o.label a then
      match o.next with
      | some nx => nx
      | none => []
    else scanOptions rest a

/-- `DynamicQuestionResolver._resolve_single_choice`.  A non-string answer
of shape `{value: ...}` is unwrapped once; any other non-string answer
yields `[]`. -/
def resolveSingleChoice (q : Question) (answer : Answer) : List String :=
  match answer with
  | .str s => scanOptions (q.options.getD []) (.str s)
  | .dict fields =>
    match fields.find? (fun p => p.1 == "value") with
    | some pv => scanOptions (q.options.getD []) pv.2
    | none => []
  | _ => []

/-- `DynamicQuestionResolver._resolve_multi_choice`: a bare string is a
singleton selection, a list is used as is, anything else yields `[]`;
every option whose label is among the selected values contributes its
`next` list (union in option order, not first-match). -/
def resolveMultiChoice (q : Question) (answer : Answer) : List String :=
  let go : List Answer → List String := fun sel =>
    (q.options.getD []).foldl
      (fun acc o =>
        if sel.any (fun a => pyEqLabel o.label a) then acc ++ o.next.getD [] else acc)
      []
  match answer with
  | .str s => go [.str s]
  | .list xs => go xs
  | _ => []

/-- `DynamicQuestionResolver._resolve_option_based_next`:
`question.get('type', 'single')` selects the single or multi resolution;
any other type yields `[]`. -/
def resolveOptionBasedNext (q : Question) (answer : Answer) : List String :=
  let t := q.type.getD "single"
  if t == "single" then resolveSingleChoice q answer
  else if t == "multi" then resolveMultiChoice q answer
  else []

/-- `DynamicQuestionResolver.resolve_next_questions`: unknown question id
gives `[]`; a direct `next` list is included verbatim, option based
reveals are appended, and the result is deduplicated preserving
first-seen order. -/
def resolveNextQuestions (qs : List Question) (qid : String) (answer : Answer) : List String :=
  match lookupQuestion qs qid with
  | none => []
  | some q =>
    let nextIds :=
      (match q.next with | some nx => nx | none => []) ++
      (if q.options.isSome then resolveOptionBasedNext q answer else [])
    dedupFirst nextIds

/-- `DynamicQuestionResolver.process_wave`: the union over all entries of
the predictions dict of `resolve_next_questions`, accumulated into a
Python set (modelled as a duplicate-free list in insertion order). -/
def processWave (qs : List Question) (wavePredictions : List (String × Answer)) : List String :=
  wavePredictions.foldl (fun acc p => setUnionList acc (resolveNextQuestions qs p.1 p.2)) []

/-! ### Section analyzer (services/section_analyzer.py) -/

/-- `SectionAnalyzer.find_root_questions`: the questions whose id is not
referenced by any `next` field (direct or inside an option) of any
question of the section. -/
def findRootQuestions (questions : List Question) : List Question :=
  let referenced : List String :=
    questions.foldl
      (fun acc q =>
        acc ++ q.next.getD [] ++
          (q.options.getD []).foldl (fun a o => a ++ o.next.getD []) [])
      []
  questions.filter (fun q => !(referenced.contains q.id))

/-- `SectionAnalyzer.detect_section_complexity`. -/
def detectSectionComplexity (questions : List Question) : String :=
  let numQuestions := questions.length
  let conditionalCount :=
    (questions.filter
      (fun q => q.next.isSome || (q.options.getD []).any (fun o => o.next.isSome))).length
  let maxDepth : Nat :=
    questions.foldl
      (fun m q =>
        let m1 := match q.next with | some nx => max m nx.length | none => m
        (q.options.getD []).foldl
          (fun m2 o => match o.next with | some nx => max m2 nx.length | none => m2) m1)
      0
  if numQuestions ≤ 2 then "low"
  else if numQuestions ≤ 6 then
    if conditionalCount > 3 ∨ maxDepth > 3 then "high" else "medium"
  else
    if conditionalCount > 5 ∨ maxDepth > 4 then "high" else "medium"

/-- `SectionAnalyzer.calculate_optimal_top_k`:
`max(5, min(20, int(3 * n * multiplier)))` with multiplier
0.8 / 1.0 / 1.5 for low / medium / high (and 1.0 for any other string).
The Python floats 0.8 and 1.5 scale the exact integer `3 * n`; truncation
of the float product agrees with exact rational truncation for every `n`
(the rounding error of the product, below half an ulp, never crosses an
integer boundary), so `int(3 * n * 0.8)` is `12 * n / 5` and
`int(3 * n * 1.5)` is `9 * n / 2` in natural-number division. -/
def calculateOptimalTopK (numQuestions : Nat) (complexity : String) : Nat :=
  let optimal : Nat :=
    if complexity == "low" then 3 * numQuestions * 4 / 5
    else if complexity == "high" then 3 * numQuestions * 3 / 2
    else 3 * numQuestions
  max 5 (min 20 optimal)

/-- A finalized section as produced by `SectionAnalyzer.parse_sections`. -/
structure ParsedSection where
  id : String
  title : String
  questions : List Question
  root_questions : List String
  complexity : String
  optimal_top_k : Nat
deriving DecidableEq

/-- `SectionAnalyzer._finalize_section`: derive root ids, complexity and
the retrieval budget for a collected section. -/
def finalizeParsedSection (sid : String) (title : String) (questions : List Question) :
    ParsedSection :=
  { id := sid
    title := title
    questions := questions
    root_questions := (findRootQuestions questions).map (fun q => q.id)
    complexity := detectSectionComplexity questions
    optimal_top_k := calculateOptimalTopK questions.length (detectSectionComplexity questions) }

/-- Store a finalized section in the sections dict (`sections[section_id]
= section_data`, overwrite-at-position on duplicate ids). -/
def storeSection (secs : List ParsedSection) (s : ParsedSection) : List ParsedSection :=
  if secs.any (fun t => t.id == s.id) then
    secs.map (fun t => if t.id == s.id then s else t)
  else secs ++ [s]

/-- The scan loop of `SectionAnalyzer.parse_sections`: `cur` is the
section being collected (`None` before the first header).  An item of
type `section` finalizes the current section and starts a new one; any
other item is appended to the current section, or silently skipped when
no section has started yet. -/
def parseSectionsGo :
    List Question → Option (String × String × List Question) → List ParsedSection →
      List ParsedSection
  | [], cur, acc =>
    match cur with
    | none => acc
    | some (sid, title, qs) => storeSection acc (finalizeParsedSection sid title qs)
  | item :: rest, cur, acc =>
    if item.type == some "section" then
      let acc' :=
        match cur with
        | none => acc
        | some (sid, title, qs) => storeSection acc (finalizeParsedSection sid title qs)
      parseSectionsGo rest (some (item.id, item.title.getD "", [])) acc'
    else
      match cur with
      | none => parseSectionsGo rest none acc
      | some (sid, title, qs) => parseSectionsGo rest (some (sid, title, qs ++ [item])) acc

/-- `SectionAnalyzer.parse_sections` on a given ordered question list. -/
def parseSections (items : List Question) : List ParsedSection :=
  parseSectionsGo items none []

/-! ### Context compressor (services/prediction_context.py) -/

/-- `str(a)` for a dynamic value that is not a list.  Strings render as
themselves; the host-language rendering of the remaining shapes (never
produced as answers by this pipeline) is abstracted to fixed tokens. -/
def elemStr : Answer → String
  | .str s => s
  | .list _ => "<list>"
  | .dict _ => "<dict>"
  | .other => "<value>"

/-- The answer rendering used throughout the compressor:
`", ".join(str(a) for a in answer)` for a list, `str(answer)` otherwise. -/
def answerToStr : Answer → String
  | .list xs => String.intercalate ", " (xs.map elemStr)
  | a => elemStr a

/-- A finalized section as stored in `PredictionContext.sections`. -/
structure SectionData where
  section_id : String
  predictions : List (String × Answer)
  reasoning : List (String × String)
  summary : String

/-- The lines produced by `PredictionContext._format_section_detail`:
a section header, one decision line per prediction, and the reasoning
line for a decision exactly when the stored reasoning is non-empty and
shorter than 200 characters. -/
def detailParts (sd : SectionData) : List String :=
  ("Section: " ++ sd.section_id) ::
    (sd.predictions.map
      (fun p =>
        let reason := dictGetD sd.reasoning p.1 ""
        ("- " ++ p.1 ++ ": " ++ answerToStr p.2) ::
          (if reason ≠ "" ∧ reason.length < 200 then ["  Reasoning: " ++ reason] else []))).flatten

/-- `PredictionContext._format_section_detail`. -/
def formatSectionDetail (sd : SectionData) : String :=
  String.intercalate "\n" (detailParts sd)

/-- `PredictionContext._summarize_section`: a one-line summary, its id
plus up to the first three decisions (a multi-select of more than three
values collapses to "N items selected", more than three decisions are
noted as "(+ K more)"). -/
def summarizeSection (sectionId : String) (predictions : List (String × Answer)) : String :=
  let keyDecisions := predictions.map
    (fun p =>
      match p.2 with
      | .list xs =>
        if xs.length ≤ 3 then String.intercalate ", " (xs.map elemStr)
        else toString xs.length ++ " items selected"
      | a => answerToStr a)
  let decisionStr := String.intercalate "; " (keyDecisions.take 3)
  let decisionStr :=
    if keyDecisions.length > 3 then
      decisionStr ++ " (+ " ++ toString (keyDecisions.length - 3) ++ " more)"
    else decisionStr
  sectionId ++ ": " ++ decisionStr

/-- `PredictionContext._compress_context`: single-tier fallback render.
Every section but the most recent is reduced to its one-line summary; the
most recent section alone keeps full detail.  On an empty section store
the incoming context is returned unchanged. -/
def compressContext (sections : List SectionData) (context : String) : String :=
  match sections.getLast? with
  | none => context
  | some lastSection =>
    let olderSummaries := (sections.take (sections.length - 1)).map (fun sd => sd.summary)
    let parts :=
      (if olderSummaries.isEmpty then []
       else ["[PREVIOUS SECTIONS]",
             String.intercalate "\n" (olderSummaries.map (fun s => "- " ++ s))]) ++
      ["\n[CURRENT SECTION - Detail]", formatSectionDetail lastSection]
    String.intercalate "\n\n" parts

/-- `PredictionContext._build_context_string`: the last two finalized
sections in full detail, all older ones as summary lines; if the result
exceeds 3000 characters it is re-rendered by `compressContext`. -/
def buildContextString (sections : List SectionData) : String :=
  if sections.isEmpty then ""
  else
    let recent := sections.drop (sections.length - 2)
    let older := sections.take (sections.length - 2)
    let parts :=
      (if recent.isEmpty then []
       else "[RECENT SECTIONS - Full Detail]" :: recent.map formatSectionDetail) ++
      (if older.isEmpty then []
       else "\n[OLDER SECTIONS - Summarized]" :: older.map (fun sd => "- " ++ sd.summary))
    let fullContext := String.intercalate "\n\n" parts
    if fullContext.length > 3000 then compressContext sections fullContext else fullContext

/-! ### Batch prediction response parsing (activities/section_analysis.py) -/

/-- The three dicts extracted from a successfully json-parsed collaborator
response (`result.get('predictions', {})` and friends). -/
structure ParsedLLM where
  predictions : List (String × Answer)
  reasoning : List (String × String)
  confidence : List (String × String)

/-- The deterministic fallback answer for a question the collaborator did
not answer: the first option's label (`options[0].get('label', '')`), or
the empty string when the question has no options. -/
def fallbackAnswer (q : Question) : String :=
  match q.options.getD [] with
  | [] => ""
  | o :: _ => o.label.getD ""

/-- The gap-filling loop of `_parse_batch_prediction_response` (success
path): every question whose id has no prediction yet receives the
fallback answer, a default reasoning and low confidence. -/
def fillMissing : ParsedLLM → List Question → ParsedLLM
  | acc, [] => acc
  | acc, q :: rest =>
    let acc' :=
      if dictContains acc.predictions q.id then acc
      else
        { predictions := dictSet acc.predictions q.id (.str (fallbackAnswer q))
          reasoning := dictSet acc.reasoning q.id "Default answer - LLM did not provide prediction"
          confidence := dictSet acc.confidence q.id "low" }
    fillMissing acc' rest

/-- The error-path loop of `_parse_batch_prediction_response`: every
question receives the fallback answer and low confidence. -/
def fillAllDefaults : ParsedLLM → List Question → ParsedLLM
  | acc, [] => acc
  | acc, q :: rest =>
    fillAllDefaults
      { predictions := dictSet acc.predictions q.id (.str (fallbackAnswer q))
        reasoning := dictSet acc.reasoning q.id "Error parsing LLM response - using default"
        confidence := dictSet acc.confidence q.id "low" }
      rest

/-- `_parse_batch_prediction_response`.  The json parsing of the raw
response text is abstracted: the argument is the parse outcome, `none`
modelling a `json.JSONDecodeError` (the markdown-stripping preprocessing
only feeds that parse). -/
def parseBatchPredictionResponse (parsed : Option ParsedLLM) (questions : List Question) :
    ParsedLLM :=
  match parsed with
  | some r => fillMissing r questions
  | none => fillAllDefaults ⟨[], [], []⟩ questions

/-! ### Wave orchestrator (workflows/section_workflow.py)

The external batch-prediction collaborator is a parameter: given the
pending questions and the predictions accumulated so far in the section
it returns the wave's predictions and reasoning dicts (company data,
configuration, cached chunks and the prior context only influence that
black box).  Two ghost fields instrument the state: `executed` counts the
loop iterations actually run and `trace` records, per iteration, the wave
number and the ids predicted in it; neither feeds back into the
computation. -/

/-- The batch-prediction collaborator:
(pending questions, accumulated predictions) to
(wave predictions, wave reasoning). -/
def PredictOracle : Type :=
  List Question → List (String × Answer) →
    List (String × Answer) × List (String × String)

/-- `self._max_waves = 5  # Safety limit`. -/
def maxWaves : Nat := 5

/-- The per-section wave state (`WaveState` plus ghost instrumentation). -/
structure SecState where
  wave_number : Nat
  pending : List Question
  predictions : List (String × Answer)
  reasoning : List (String × String)
  executed : Nat
  trace : List (Nat × List String)

/-- `SectionAnalysisWorkflow._process_wave`: predict the pending batch,
merge predictions and reasoning, resolve the newly revealed ids with
`process_wave`, and set the next pending set to the section questions
whose id was revealed.  Returns the updated state and the raw
`newly_revealed` id list. -/
def processWaveStep (predict : PredictOracle) (allQ : List Question) (st : SecState) :
    SecState × List String :=
  let pr := predict st.pending st.predictions
  let newlyRevealed := processWave allQ pr.1
  ({ st with
      predictions := dictUpdateAll st.predictions pr.1
      reasoning := dictUpdateAll st.reasoning pr.2
      pending := allQ.filter (fun q => newlyRevealed.contains q.id)
      executed := st.executed + 1
      trace := st.trace ++ [(st.wave_number, st.pending.map (fun q => q.id))] },
   newlyRevealed)

/-- How the wave loop of `SectionAnalysisWorkflow.run` ended:
`noReveal` for the in-loop break when no new question was revealed,
`emptyPending` and `ceiling` for the loop guard failing with an empty
pending set resp. with the wave counter above the ceiling. -/
inductive WaveExit where
  | noReveal : WaveExit
  | emptyPending : WaveExit
  | ceiling : WaveExit
deriving DecidableEq

/-- The wave loop, fuelled.  The loop guard is
`pending and wave_number <= max_waves`; calling with
`fuel = maxWaves + 1 - wave_number` makes fuel exhaustion coincide
exactly with the guard's second conjunct failing, since the fuel drops by
one whenever the wave counter rises by one. -/
def waveLoopAux (predict : PredictOracle) (allQ : List Question) :
    Nat → SecState → SecState × WaveExit
  | 0, st => (st, if st.pending.isEmpty then .emptyPending else .ceiling)
  | fuel + 1, st =>
    if st.pending.isEmpty then (st, .emptyPending)
    else
      let r := processWaveStep predict allQ st
      if r.2.isEmpty then (r.1, .noReveal)
      else waveLoopAux predict allQ fuel { r.1 with wave_number := st.wave_number + 1 }

/-- The wave loop of `SectionAnalysisWorkflow.run` (step 3), returning
the final state and how the loop ended. -/
def waveLoop (predict : PredictOracle) (allQ : List Question) (st : SecState) :
    SecState × WaveExit :=
  waveLoopAux predict allQ (maxWaves + 1 - st.wave_number) st

/-- The wave state at step-3 entry: `pending = root questions`,
`wave_number = 1`, empty prediction and reasoning dicts. -/
def initSecState (roots : List Question) : SecState :=
  { wave_number := 1, pending := roots, predictions := [], reasoning := []
    executed := 0, trace := [] }

/-- The fields of the section workflow's result dict that the claims are
about: `waves_executed` is the final value of the wave counter. -/
structure SectionRunResult where
  predictions : List (String × Answer)
  reasoning : List (String × String)
  waves_executed : Nat

/-- Steps 3 and 4 of `SectionAnalysisWorkflow.run`: run the wave loop
from the root questions and package the result dict (the final state and
exit kind are returned alongside for the statements below). -/
def runSectionWaves (predict : PredictOracle) (allQ roots : List Question) :
    SectionRunResult × SecState × WaveExit :=
  let r := waveLoop predict allQ (initSecState roots)
  (⟨r.1.predictions, r.1.reasoning, r.1.wave_number⟩, r.1, r.2)

/-! ### Outer run loop (workflows/questionnaire_workflow.py)

The child section workflow is a parameter: given the section index, the
section info and the accumulated context it either returns a section
result or raises (`Except.error`).  The cooperative cancellation flag is
a parameter `cancelAt` giving the value of `self._cancelled` observed at
the check before section `i`.  The run is modelled together with the
ordered list of external effects it performs, so that the
result-persistence call can be counted. -/

/-- A section entry of the outer workflow's input. -/
structure SectionInfo where
  id : String
  title : String

/-- The child section workflow's result, as read by the outer loop. -/
structure SectionResultData where
  predictions : List (String × Answer)
  reasoning : List (String × String)
  rag_metadata : String
  updated_context : String

/-- An external effect performed by the outer workflow. -/
inductive RunEffect where
  | progressUpdate (message : String) (current total : Nat) : RunEffect
  | childSection (sectionId : String) : RunEffect
  | persistCall (predictions : List (String × Answer)) (finalContext : String) : RunEffect

/-- Whether an effect is the result-persistence call
(`save_questionnaire_results`). -/
def RunEffect.isPersistCall : RunEffect → Bool
  | .persistCall _ _ => true
  | _ => false

/-- The mutable state of `QuestionnaireAnalysisWorkflow`. -/
structure RunState where
  accumulated_context : String
  all_predictions : List (String × Answer)
  all_reasoning : List (String × String)
  all_rag_metadata : List (String × String)
  sections_completed : Nat
  total_sections : Nat
  predictions_made : Nat
  current_section : String
  status : String
  cancelled : Bool

/-- The outer section loop of `QuestionnaireAnalysisWorkflow.run`:
before each section the cancellation flag is checked (a set flag stops
the loop with status `cancelled`); a progress update is sent; the child
section workflow runs; on success its results are accumulated, on an
exception the section is skipped (`continue`) leaving predictions
untouched; either way `sections_completed` is incremented. -/
def runSectionLoop (exec : Nat → SectionInfo → String → Except String SectionResultData)
    (cancelAt : Nat → Bool) :
    List SectionInfo → Nat → RunState → RunState × List RunEffect
  | [], _, st => (st, [])
  | info :: rest, i, st =>
    if cancelAt i then
      ({ st with status := "cancelled", cancelled := true }, [])
    else
      let st0 := { st with current_section := info.title }
      let progressEff : RunEffect :=
        .progressUpdate ("Processing " ++ st0.current_section) st0.sections_completed
          st0.total_sections
      match exec i info st0.accumulated_context with
      | .ok r =>
        let st1 :=
          { st0 with
              all_predictions := dictUpdateAll st0.all_predictions r.predictions
              all_reasoning := dictUpdateAll st0.all_reasoning r.reasoning
              all_rag_metadata := dictSet st0.all_rag_metadata info.id r.rag_metadata
              accumulated_context := r.updated_context
              sections_completed := st0.sections_completed + 1
              predictions_made := st0.predictions_made + r.predictions.length }
        let cont := runSectionLoop exec cancelAt rest (i + 1) st1
        (cont.1, progressEff :: .childSection info.id :: cont.2)
      | .error _ =>
        let st1 := { st0 with sections_completed := st0.sections_completed + 1 }
        let cont := runSectionLoop exec cancelAt rest (i + 1) st1
        (cont.1, progressEff :: .childSection info.id :: cont.2)

/-- The initial state of `QuestionnaireAnalysisWorkflow`. -/
def initRunState (totalSections : Nat) : RunState :=
  { accumulated_context := "", all_predictions := [], all_reasoning := []
    all_rag_metadata := [], sections_completed := 0, total_sections := totalSections
    predictions_made := 0, current_section := "", status := "running", cancelled := false }

/-- `QuestionnaireAnalysisWorkflow.run`: run the section loop, mark the
run completed unless cancelled, then perform the single
result-persistence call.  Returns the final state and the full ordered
effect trace. -/
def runQuestionnaire (exec : Nat → SectionInfo → String → Except String SectionResultData)
    (cancelAt : Nat → Bool) (sections : List SectionInfo) : RunState × List RunEffect :=
  let r := runSectionLoop exec cancelAt sections 0 (initRunState sections.length)
  let st := if r.1.cancelled then r.1 else { r.1 with status := "completed" }
  (st, r.2 ++ [.persistCall st.all_predictions st.accumulated_context])

/-! ### Spec-side definitions

These definitions transcribe the specification's wording (for refinement
statements); they are compared against the code-side definitions above. -/

/-- The spec's retrieval-budget multiplier: 0.8 / 1.0 / 1.5 for
low / medium / high. -/
def specMultiplier (complexity : String) : ℚ :=
  if complexity = "low" then 4 / 5
  else if complexity = "high" then 3 / 2
  else 1

/-- Rounding to the nearest integer (ties upward; the products
`3 * n * multiplier` land on a half-integer only for odd `n` at the
`high` multiplier, where within the clamp range both tie conventions
agree). -/
def specRound (x : ℚ) : ℤ :=
  Int.floor (x + 1 / 2)

/-- The spec's `computeRetrievalBudget`:
`clamp(round(3 * n * multiplier), 5, 20)` with round-to-nearest. -/
def specBudgetRound (n : Nat) (complexity : String) : ℤ :=
  max 5 (min 20 (specRound (3 * n * specMultiplier complexity)))

/-- The budget with truncation instead of rounding:
`clamp(trunc(3 * n * multiplier), 5, 20)`. -/
def specBudgetTrunc (n : Nat) (complexity : String) : ℕ :=
  max 5 (min 20 (Nat.floor (3 * (n : ℚ) * specMultiplier complexity)))

/-- The spec's two-tier rendering of the run context: the most recent two
finalized sections (the last two of the section store) in full detail,
all older sections as their one-line summaries under a separated
header. -/
def specTwoTierRender (sections : List SectionData) : String :=
  let rev := sections.reverse
  let recent := (rev.take 2).reverse
  let older := (rev.drop 2).reverse
  String.intercalate "\n\n"
    ((if recent.isEmpty then []
      else "[RECENT SECTIONS - Full Detail]" :: recent.map formatSectionDetail) ++
     (if older.isEmpty then []
      else "\n[OLDER SECTIONS - Summarized]" :: older.map (fun sd => "- " ++ sd.summary)))

/-- The spec's single-tier fallback rendering: every section except the
single most recent reduced to its summary line, only the most recent in
full detail. -/
def specOneTierRender (sections : List SectionData) : String :=
  match sections.reverse with
  | [] => ""
  | lastSection :: olderRev =>
    let olderSummaries := olderRev.reverse.map (fun sd => sd.summary)
    String.intercalate "\n\n"
      ((if olderSummaries.isEmpty then []
        else ["[PREVIOUS SECTIONS]",
              String.intercalate "\n" (olderSummaries.map (fun s => "- " ++ s))]) ++
       ["\n[CURRENT SECTION - Detail]", formatSectionDetail lastSection])

/-! ### Concrete inputs used by witnesses and counterexamples -/

/-- A single-choice question with one edge-carrying option. -/
def demoSingle (i lab : String) (nx : List String) : Question :=
  { id := i, type := some "single", title := none,
    options := some [{ label := some lab, next := some nx }], next := none }

/-- A section whose reveal-edge graph has the cycle A to B to A, entered
from the root question R. -/
def cycleQuestions : List Question :=
  [demoSingle "R" "Yes" ["A"], demoSingle "A" "Yes" ["B"], demoSingle "B" "Yes" ["A"]]

/-- The root questions of `cycleQuestions` (only R is not an edge
target). -/
def cycleRoots : List Question :=
  [demoSingle "R" "Yes" ["A"]]

/-- A collaborator that answers every pending question with "Yes". -/
def oracleYes : PredictOracle :=
  fun pending _ => (pending.map (fun q => (q.id, Answer.str "Yes")), [])

/-- A single-choice question with two options of which only the second
carries (duplicated) edges. -/
def demoChoiceQ : Question :=
  { id := "Q", type := some "single", title := none,
    options := some [{ label := some "No", next := none },
                     { label := some "Yes", next := some ["X", "X", "Y"] }],
    next := none }

/-- A non-header question (for the segmentation counterexample). -/
def demoPlainQ : Question :=
  { id := "Q0", type := some "single", title := none, options := none, next := none }

/-- A section-header item. -/
def demoHeaderQ : Question :=
  { id := "S1", type := some "section", title := some "T", options := none, next := none }

/-- Two prediction entries revealing overlapping targets
(for the `process_wave` witness). -/
def demoWavePreds : List (String × Answer) :=
  [("Q", Answer.str "Yes"), ("Q2", Answer.str "Go")]

/-- A second question revealing the id X already revealed by
`demoChoiceQ`. -/
def demoChoiceQ2 : Question :=
  { id := "Q2", type := some "single", title := none,
    options := some [{ label := some "Go", next := some ["X", "Z"] }], next := none }

/-- Three finalized sections for the context-rendering witness. -/
def demoSections : List SectionData :=
  [{ section_id := "S1", predictions := [("a", .str "x")], reasoning := [("a", "why")],
     summary := "S1: x" },
   { section_id := "S2", predictions := [("b", .str "y")], reasoning := [],
     summary := "S2: y" },
   { section_id := "S3", predictions := [("c", .list [.str "u", .str "v"])],
     reasoning := [("c", String.mk (List.replicate 250 'z'))], summary := "S3: u, v" }]

/-- A section store whose two-tier rendering exceeds 3000 characters. -/
def demoLargeSections : List SectionData :=
  [{ section_id := "S1", predictions := [("a", .str (String.mk (List.replicate 3500 'w')))],
     reasoning := [], summary := "S1: long" },
   { section_id := "S2", predictions := [("b", .str "y")], reasoning := [],
     summary := "S2: y" }]

/-- An incomplete choice question batch entry (for the gap-filling
witness). -/
def demoBatch : List Question :=
  [demoChoiceQ]

/-- Outer-loop demo: two sections, of which the first fails. -/
def demoSectionInfos : List SectionInfo :=
  [{ id := "S1", title := "T1" }, { id := "S2", title := "T2" }]

/-- A child workflow that raises on the first section and succeeds on the
second. -/
def demoExec : Nat → SectionInfo → String → Except String SectionResultData :=
  fun i _ _ =>
    if i = 0 then .error "boom"
    else .ok { predictions := [("b1", .str "v")], reasoning := [("b1", "r")],
               rag_metadata := "m", updated_context := "ctx2" }

/-- A cancellation flag that is never set. -/
def cancelNever : Nat → Bool := fun _ => false

/-! ## Theorems -/

/-- Claim C3, counterexample: at 7 questions of low complexity the code
computes `int(3 * 7 * 0.8) = int(16.8) = 16`, while the claimed formula
`clamp(round(3 * 7 * 0.8), 5, 20)` with round-to-nearest gives 17, so the
budget does not round to nearest. -/
theorem counterexample_C3 :
    calculateOptimalTopK 7 "low" = 16 ∧ specBudgetRound 7 "low" = 17 := by
  constructor
  · rfl
  · norm_num [specBudgetRound, specRound, specMultiplier]

/-- Claim C3 (corrected): for every question count n at least 1 and
complexity among low, medium and high, the retrieval budget equals
`clamp(trunc(3 * n * multiplier), 5, 20)` with the multipliers 0.8, 1.0
and 1.5 — i.e. the fractional product is truncated, not rounded to
nearest; moreover the budget is monotonically non-decreasing in n for any
fixed complexity string, and it never leaves the interval [5, 20]. -/
theorem claim_C3 :
    (∀ n : Nat, 1 ≤ n → ∀ c ∈ (["low", "medium", "high"] : List String),
        calculateOptimalTopK n c = specBudgetTrunc n c) ∧
    (∀ n m : Nat, ∀ c : String, n ≤ m →
        calculateOptimalTopK n c ≤ calculateOptimalTopK m c) ∧
    (∀ n : Nat, ∀ c : String,
        5 ≤ calculateOptimalTopK n c ∧ calculateOptimalTopK n c ≤ 20) := by
  refine ⟨?_, ?_, ?_⟩
  · intro n _ c hc
    simp only [List.mem_cons, List.mem_singleton, List.not_mem_nil, or_false] at hc
    rcases hc with rfl | rfl | rfl
    · have hm : specMultiplier "low" = 4 / 5 := by simp [specMultiplier]
      have h : (3 * (n : ℚ) * (4 / 5)) = ((12 * n : ℕ) : ℚ) / ((5 : ℕ) : ℚ) := by
        push_cast
        ring
      simp only [specBudgetTrunc, hm, h, Nat.floor_div_eq_div]
      simp only [calculateOptimalTopK]
      simp
      omega
    · have hm : specMultiplier "medium" = 1 := by simp [specMultiplier]
      have h : (3 * (n : ℚ) * 1) = ((3 * n : ℕ) : ℚ) := by
        push_cast
        ring
      simp only [specBudgetTrunc, hm, h, Nat.floor_natCast]
      simp only [calculateOptimalTopK]
      simp
    · have hm : specMultiplier "high" = 3 / 2 := by simp [specMultiplier]
      have h : (3 * (n : ℚ) * (3 / 2)) = ((9 * n : ℕ) : ℚ) / ((2 : ℕ) : ℚ) := by
        push_cast
        ring
      simp only [specBudgetTrunc, hm, h, Nat.floor_div_eq_div]
      simp only [calculateOptimalTopK]
      simp
      omega
  · intro n m c h
    simp only [calculateOptimalTopK]
    split_ifs <;> omega
  · intro n c
    simp only [calculateOptimalTopK]
    split_ifs <;> omega

/-- Witness for claim C3 at concrete inputs: the truncating formula at
n = 3 low, monotonicity between n = 4 and n = 9 high, and the bounds at
n = 1 medium. -/
theorem claim_C3_witness :
    calculateOptimalTopK 3 "low" = specBudgetTrunc 3 "low" ∧
    calculateOptimalTopK 4 "high" ≤ calculateOptimalTopK 9 "high" ∧
    (5 ≤ calculateOptimalTopK 1 "medium" ∧ calculateOptimalTopK 1 "medium" ≤ 20) :=
  ⟨claim_C3.1 3 (by norm_num) "low" (by simp),
   claim_C3.2.1 4 9 "high" (by norm_num),
   claim_C3.2.2 1 "medium"⟩

/-- Membership in the Python-set accumulation: inserting the elements of
`l` into `acc` yields exactly the elements of either list. -/
theorem mem_setUnionList {x : String} :
    ∀ (l acc : List String), x ∈ setUnionList acc l ↔ x ∈ acc ∨ x ∈ l := by
  intro l
  induction l with
  | nil => intro acc; simp [setUnionList]
  | cons y ys ih =>
    intro acc
    show x ∈ setUnionList (if y ∈ acc then acc else acc ++ [y]) ys ↔ _
    by_cases hy : y ∈ acc
    · rw [if_pos hy, ih]
      constructor
      · rintro (h | h)
        · exact Or.inl h
        · exact Or.inr (List.mem_cons_of_mem _ h)
      · rintro (h | h)
        · exact Or.inl h
        · rcases List.mem_cons.mp h with rfl | h
          · exact Or.inl hy
          · exact Or.inr h
    · rw [if_neg hy, ih]
      simp only [List.mem_append, List.mem_singleton, List.mem_cons]
      tauto

/-- The Python-set accumulation never introduces duplicates. -/
theorem nodup_setUnionList :
    ∀ (l acc : List String), acc.Nodup → (setUnionList acc l).Nodup := by
  intro l
  induction l with
  | nil => intro acc h; exact h
  | cons y ys ih =>
    intro acc h
    show (setUnionList (if y ∈ acc then acc else acc ++ [y]) ys).Nodup
    by_cases hy : y ∈ acc
    · rw [if_pos hy]; exact ih acc h
    · rw [if_neg hy]
      refine ih _ ?_
      simp [List.nodup_append, h, hy]

/-- Membership in the fold that accumulates the reveal sets of every
prediction entry. -/
theorem mem_processWave_foldl (f : String × Answer → List String) :
    ∀ (preds : List (String × Answer)) (acc : List String) (x : String),
      x ∈ preds.foldl (fun a p => setUnionList a (f p)) acc ↔
        x ∈ acc ∨ ∃ p ∈ preds, x ∈ f p := by
  intro preds
  induction preds with
  | nil => intro acc x; simp
  | cons p ps ih =>
    intro acc x
    show x ∈ ps.foldl _ (setUnionList acc (f p)) ↔ _
    rw [ih, mem_setUnionList]
    simp only [List.mem_cons]
    constructor
    · rintro ((h | h) | ⟨q, hq, hx⟩)
      · exact Or.inl h
      · exact Or.inr ⟨p, Or.inl rfl, h⟩
      · exact Or.inr ⟨q, Or.inr hq, hx⟩
    · rintro (h | ⟨q, (rfl | hq), hx⟩)
      · exact Or.inl (Or.inl h)
      · exact Or.inl (Or.inr hx)
      · exact Or.inr ⟨q, hq, hx⟩

/-- Claim C5: `process_wave` returns, as a set, the union of
`resolve_next_questions` over all entries of the predictions map: the
result has no duplicate ids, its members are exactly the ids revealed by
some entry, and re-ordering the entries (any permutation of the map)
leaves the resulting id set identical. -/
theorem claim_C5 (qs : List Question) (preds preds' : List (String × Answer)) :
    (processWave qs preds).Nodup ∧
    (∀ x, x ∈ processWave qs preds ↔
      ∃ p ∈ preds, x ∈ resolveNextQuestions qs p.1 p.2) ∧
    (preds.Perm preds' →
      (processWave qs preds).toFinset = (processWave qs preds').toFinset) := by
  have hmem : ∀ (l : List (String × Answer)) (x : String),
      x ∈ processWave qs l ↔ ∃ p ∈ l, x ∈ resolveNextQuestions qs p.1 p.2 := by
    intro l x
    rw [processWave, mem_processWave_foldl]
    simp
  refine ⟨?_, hmem preds, ?_⟩
  · rw [processWave]
    have : ∀ (l : List (String × Answer)) (acc : List String), acc.Nodup →
        (l.foldl (fun a p => setUnionList a (resolveNextQuestions qs p.1 p.2)) acc).Nodup := by
      intro l
      induction l with
      | nil => intro acc h; exact h
      | cons p ps ih => intro acc h; exact ih _ (nodup_setUnionList _ _ h)
    exact this preds [] List.nodup_nil
  · intro hperm
    ext a
    simp only [List.mem_toFinset, hmem]
    constructor
    · rintro ⟨p, hp, hx⟩; exact ⟨p, hperm.mem_iff.mp hp, hx⟩
    · rintro ⟨p, hp, hx⟩; exact ⟨p, hperm.mem_iff.mpr hp, hx⟩

/-- Witness for claim C5: two entries revealing the overlapping sets
X, X, Y and X, Z; the result is duplicate free and unchanged as a set
when the two entries are swapped. -/
theorem claim_C5_witness :
    (processWave [demoChoiceQ, demoChoiceQ2] demoWavePreds).Nodup ∧
    (processWave [demoChoiceQ, demoChoiceQ2]
        [("Q2", Answer.str "Go"), ("Q", Answer.str "Yes")]).toFinset =
      (processWave [demoChoiceQ, demoChoiceQ2] demoWavePreds).toFinset :=
  ⟨(claim_C5 [demoChoiceQ, demoChoiceQ2] demoWavePreds demoWavePreds).1,
   (claim_C5 [demoChoiceQ, demoChoiceQ2]
      [("Q2", Answer.str "Go"), ("Q", Answer.str "Yes")] demoWavePreds).2.2
     (List.Perm.swap ("Q", Answer.str "Yes") ("Q2", Answer.str "Go") [])⟩

/-- The option scan never matches a non-string (post-unwrap) answer:
labels only compare equal to strings. -/
theorem scanOptions_not_str (opts : List QOption) (a : Answer)
    (h : ∀ s, a ≠ Answer.str s) : scanOptions opts a = [] := by
  have hfalse : ∀ ol, pyEqLabel ol a = false := by
    intro ol
    cases ol with
    | none => rfl
    | some s =>
      cases a with
      | str t => exact absurd rfl (h t)
      | list xs => rfl
      | dict f => rfl
      | other => rfl
  induction opts with
  | nil => rfl
  | cons o rest ih => simp [scanOptions, hfalse, ih]

/-- On a string answer the option scan is first-match: the first option
whose label equals the answer decides the result (its edge list if it
carries one, nothing otherwise), and no later option is consulted. -/
theorem scanOptions_str_eq_find (opts : List QOption) (lab : String) :
    scanOptions opts (.str lab) =
      ((opts.find? (fun o => o.label == some lab)).bind QOption.next).getD [] := by
  induction opts with
  | nil => rfl
  | cons o rest ih =>
    have hb : pyEqLabel o.label (Answer.str lab) = (o.label == some lab) := by
      cases o.label <;> rfl
    by_cases h : (o.label == some lab) = true
    · cases hn : o.next <;> simp [scanOptions, hb, h, hn, List.find?]
    · simp only [Bool.not_eq_true] at h
      simp [scanOptions, hb, h, List.find?, ih]

/-- Claim C6: on a single-choice question without a direct reveal-edge
list, `resolve_next_questions` (i) returns the empty set for a list
answer, for any other non-string non-dict answer, and for a dict answer
without a `value` field; (ii) unwraps a dict answer's `value` field once,
behaving like the unwrapped label if that is a string and yielding the
empty set otherwise; and (iii) on a label answer returns the
deduplicated edge list (in original order) of the first option whose
label equals the answer — nothing if that option carries no edges, and
the empty set when no option matches. -/
theorem claim_C6 (qs : List Question) (qid : String) (q : Question) (opts : List QOption)
    (hq : lookupQuestion qs qid = some q) (hnext : q.next = none)
    (htype : q.type.getD "single" = "single") (hopts : q.options = some opts) :
    (∀ xs, resolveNextQuestions qs qid (.list xs) = []) ∧
    resolveNextQuestions qs qid .other = [] ∧
    (∀ fields, fields.find? (fun p => p.1 == "value") = none →
        resolveNextQuestions qs qid (.dict fields) = []) ∧
    (∀ fields pv, fields.find? (fun p => p.1 == "value") = some pv →
        resolveNextQuestions qs qid (.dict fields) =
          (match pv.2 with
           | .str lab => resolveNextQuestions qs qid (.str lab)
           | _ => [])) ∧
    (∀ lab, resolveNextQuestions qs qid (.str lab) =
        dedupFirst (((opts.find? (fun o => o.label == some lab)).bind QOption.next).getD [])) := by
  have hres : ∀ a, resolveNextQuestions qs qid a = dedupFirst (resolveSingleChoice q a) := by
    intro a
    simp [resolveNextQuestions, hq, hnext, resolveOptionBasedNext, htype, hopts]
  have hget : q.options.getD [] = opts := by rw [hopts]; rfl
  refine ⟨?_, ?_, ?_, ?_, ?_⟩
  · intro xs
    rw [hres]
    rfl
  · rw [hres]
    rfl
  · intro fields hfind
    rw [hres]
    simp only [resolveSingleChoice, hfind]
    rfl
  · intro fields pv hfind
    rw [hres]
    have hsc : resolveSingleChoice q (.dict fields) = scanOptions opts pv.2 := by
      simp [resolveSingleChoice, hfind, hget]
    rw [hsc]
    cases hv : pv.2 with
    | str lab =>
      show dedupFirst (scanOptions opts (Answer.str lab)) =
        resolveNextQuestions qs qid (Answer.str lab)
      rw [hres]
      simp [resolveSingleChoice, hget]
    | list xs => rw [scanOptions_not_str _ _ (by intro s h; cases h)]; rfl
    | dict f => rw [scanOptions_not_str _ _ (by intro s h; cases h)]; rfl
    | other => rw [scanOptions_not_str _ _ (by intro s h; cases h)]; rfl
  · intro lab
    rw [hres]
    have hsc : resolveSingleChoice q (.str lab) = scanOptions opts (.str lab) := by
      simp [resolveSingleChoice, hget]
    rw [hsc, scanOptions_str_eq_find]

/-- Witness for claim C6 on a two-option question where only the "Yes"
option carries the (duplicated) edge list X, X, Y: "Yes" returns the
deduplicated list, "No" returns the empty set, a dict-wrapped "Yes"
unwraps, and a non-string answer resolves to the empty set. -/
theorem claim_C6_witness :
    resolveNextQuestions [demoChoiceQ] "Q" (Answer.str "Yes") = ["X", "Y"] ∧
    resolveNextQuestions [demoChoiceQ] "Q" (Answer.str "No") = [] ∧
    resolveNextQuestions [demoChoiceQ] "Q"
      (Answer.dict [("value", Answer.str "Yes")]) = ["X", "Y"] ∧
    resolveNextQuestions [demoChoiceQ] "Q" Answer.other = [] := by
  have h := claim_C6 [demoChoiceQ] "Q" demoChoiceQ
    [{ label := some "No", next := none },
     { label := some "Yes", next := some ["X", "X", "Y"] }]
    rfl rfl rfl rfl
  refine ⟨?_, ?_, ?_, h.2.1⟩
  · rw [h.2.2.2.2 "Yes"]; rfl
  · rw [h.2.2.2.2 "No"]; rfl
  · rw [h.2.2.2.1 [("value", Answer.str "Yes")] ("value", Answer.str "Yes") rfl]
    rw [show (match (("value", Answer.str "Yes") : String × Answer).2 with
         | .str lab => resolveNextQuestions [demoChoiceQ] "Q" (.str lab)
         | _ => ([] : List String)) =
        resolveNextQuestions [demoChoiceQ] "Q" (.str "Yes") from rfl]
    rw [h.2.2.2.2 "Yes"]; rfl

/-- Claim C2, counterexample: a question list in which the non-header
question Q0 precedes the first section header is segmented without any
failure — the result is the header's (empty) section and Q0 appears in
no section, so segmentation silently drops pre-header questions instead
of failing with a MalformedGraph error. -/
theorem counterexample_C2 :
    parseSections [demoPlainQ, demoHeaderQ] =
      [{ id := "S1", title := "T", questions := [], root_questions := [],
         complexity := "low", optimal_top_k := 5 }] ∧
    (parseSections [demoPlainQ, demoHeaderQ]).all
      (fun s => !(s.questions.contains demoPlainQ)) = true := by
  constructor
  · rfl
  · rfl

/-- Claim C2 (corrected): segmentation never fails on non-header
questions preceding the first section header — they are silently ignored:
parsing a list with a header-free prefix gives exactly the parse of the
remainder, so those questions appear in no section. -/
theorem claim_C2 :
    ∀ (pre rest : List Question), (∀ q ∈ pre, q.type ≠ some "section") →
      parseSections (pre ++ rest) = parseSections rest := by
  intro pre
  induction pre with
  | nil => intro rest _; rfl
  | cons q pre ih =>
    intro rest h
    have hq : (q.type == some "section") = false := by
      simpa using h q (List.mem_cons_self q pre)
    show parseSectionsGo (q :: (pre ++ rest)) none [] = _
    simp only [parseSectionsGo, hq]
    exact ih rest (fun p hp => h p (List.mem_cons_of_mem q hp))

/-- Witness for claim C2: prefixing a header-started list by the
non-header question Q0 leaves the parse unchanged. -/
theorem claim_C2_witness :
    parseSections ([demoPlainQ] ++ [demoHeaderQ, demoPlainQ]) =
      parseSections [demoHeaderQ, demoPlainQ] :=
  claim_C2 [demoPlainQ] [demoHeaderQ, demoPlainQ] (by decide)

/-- Assigning a key stores its value. -/
theorem dictGet?_dictSet_self {α : Type} (d : List (String × α)) (k : String) (v : α) :
    dictGet? (dictSet d k v) k = some v := by
  induction d with
  | nil => simp [dictSet, dictGet?, List.find?]
  | cons p rest ih =>
    by_cases h : (p.1 == k) = true
    · simp [dictSet, h, dictGet?, List.find?]
    · simp only [Bool.not_eq_true] at h
      simp only [dictSet, h, Bool.false_eq_true, if_false]
      simpa [dictGet?, List.find?, h] using ih

/-- Assigning a key leaves every other key's value unchanged. -/
theorem dictGet?_dictSet_ne {α : Type} (d : List (String × α)) (k k' : String) (v : α)
    (h : k' ≠ k) : dictGet? (dictSet d k v) k' = dictGet? d k' := by
  have hkk : (k == k') = false := by simp [BEq.comm]; exact fun hh => h hh.symm
  induction d with
  | nil => simp [dictSet, dictGet?, List.find?, hkk]
  | cons p rest ih =>
    by_cases hp : (p.1 == k) = true
    · simp [dictSet, hp, dictGet?, List.find?, hkk]
      have : (p.1 == k') = false := by
        have hpk : p.1 = k := by simpa using hp
        simp [hpk]
        exact fun hh => h hh.symm
      simp [this]
    · simp only [Bool.not_eq_true] at hp
      simp only [dictSet, hp, Bool.false_eq_true, if_false]
      by_cases hp' : (p.1 == k') = true
      · simp [dictGet?, List.find?, hp']
      · simp only [Bool.not_eq_true] at hp'
        simpa [dictGet?, List.find?, hp'] using ih

/-- Key membership is definedness of lookup. -/
theorem dictContains_eq_isSome {α : Type} (d : List (String × α)) (k : String) :
    dictContains d k = (dictGet? d k).isSome := by
  induction d with
  | nil => rfl
  | cons p rest ih =>
    by_cases h : (p.1 == k) = true
    · simp [dictContains, dictGet?, List.find?, h]
    · simp only [Bool.not_eq_true] at h
      simpa [dictContains, dictGet?, List.find?, h] using ih

/-- Assigning a key makes it present. -/
theorem dictContains_dictSet_self {α : Type} (d : List (String × α)) (k : String) (v : α) :
    dictContains (dictSet d k v) k = true := by
  rw [dictContains_eq_isSome, dictGet?_dictSet_self]
  rfl

/-- Assigning a key does not change the presence of other keys. -/
theorem dictContains_dictSet_ne {α : Type} (d : List (String × α)) (k k' : String) (v : α)
    (h : k' ≠ k) : dictContains (dictSet d k v) k' = dictContains d k' := by
  rw [dictContains_eq_isSome, dictContains_eq_isSome, dictGet?_dictSet_ne d k k' v h]

/-- Assignment preserves the presence of any already present key. -/
theorem dictContains_dictSet_of {α : Type} (d : List (String × α)) (k k' : String) (v : α)
    (h : dictContains d k' = true) : dictContains (dictSet d k v) k' = true := by
  by_cases hk : k' = k
  · subst hk; exact dictContains_dictSet_self d k' v
  · rw [dictContains_dictSet_ne d k k' v hk]; exact h

/-- Unfolding of the gap-filling loop on a non-empty batch. -/
theorem fillMissing_cons (acc : ParsedLLM) (q : Question) (rest : List Question) :
    fillMissing acc (q :: rest) =
      fillMissing
        (if dictContains acc.predictions q.id then acc
         else { predictions := dictSet acc.predictions q.id (.str (fallbackAnswer q))
                reasoning := dictSet acc.reasoning q.id
                  "Default answer - LLM did not provide prediction"
                confidence := dictSet acc.confidence q.id "low" }) rest := rfl

/-- Unfolding of the error-path loop on a non-empty batch. -/
theorem fillAllDefaults_cons (acc : ParsedLLM) (q : Question) (rest : List Question) :
    fillAllDefaults acc (q :: rest) =
      fillAllDefaults
        { predictions := dictSet acc.predictions q.id (.str (fallbackAnswer q))
          reasoning := dictSet acc.reasoning q.id "Error parsing LLM response - using default"
          confidence := dictSet acc.confidence q.id "low" } rest := rfl

/-- The distinct-ids hypothesis on a non-empty batch, split. -/
theorem batch_nodup_split (q0 : Question) (rest : List Question)
    (hnd : ((q0 :: rest).map Question.id).Nodup) :
    (∀ p ∈ rest, p.id ≠ q0.id) ∧ (rest.map Question.id).Nodup := by
  rw [List.map_cons, List.nodup_cons] at hnd
  refine ⟨?_, hnd.2⟩
  intro p hp hpq
  exact hnd.1 (hpq ▸ List.mem_map_of_mem Question.id hp)

/-- The gap-filling loop only touches the keys of the batch it walks:
lookups at any other key are unchanged. -/
theorem fillMissing_preserve (i : String) :
    ∀ (qs : List Question) (acc : ParsedLLM), (∀ q ∈ qs, q.id ≠ i) →
      dictGet? (fillMissing acc qs).predictions i = dictGet? acc.predictions i ∧
      dictGet? (fillMissing acc qs).confidence i = dictGet? acc.confidence i := by
  intro qs
  induction qs with
  | nil => intro acc _; exact ⟨rfl, rfl⟩
  | cons q rest ih =>
    intro acc h
    have hqi : q.id ≠ i := h q (List.mem_cons_self q rest)
    have hni : i ≠ q.id := fun hh => hqi hh.symm
    have hrest : ∀ p ∈ rest, p.id ≠ i := fun p hp => h p (List.mem_cons_of_mem q hp)
    rw [fillMissing_cons]
    by_cases hc : dictContains acc.predictions q.id = true
    · rw [if_pos hc]
      exact ih acc hrest
    · rw [if_neg (by simp [hc])]
      rcases ih _ hrest with ⟨h1, h2⟩
      refine ⟨?_, ?_⟩
      · rw [h1]
        exact dictGet?_dictSet_ne _ _ _ _ hni
      · rw [h2]
        exact dictGet?_dictSet_ne _ _ _ _ hni

/-- After the gap-filling loop, every id that was present before or
belongs to some question of the batch is present. -/
theorem fillMissing_contains (i : String) :
    ∀ (qs : List Question) (acc : ParsedLLM),
      (dictContains acc.predictions i = true ∨ ∃ q ∈ qs, q.id = i) →
      dictContains (fillMissing acc qs).predictions i = true := by
  intro qs
  induction qs with
  | nil =>
    intro acc h
    rcases h with h | ⟨q, hq, _⟩
    · exact h
    · exact absurd hq (List.not_mem_nil q)
  | cons q rest ih =>
    intro acc h
    rw [fillMissing_cons]
    by_cases hc : dictContains acc.predictions q.id = true
    · rw [if_pos hc]
      refine ih acc ?_
      rcases h with h | ⟨p, hp, hpi⟩
      · exact Or.inl h
      · rcases List.mem_cons.mp hp with rfl | hp'
        · exact Or.inl (hpi ▸ hc)
        · exact Or.inr ⟨p, hp', hpi⟩
    · rw [if_neg (by simp [hc])]
      refine ih _ ?_
      rcases h with h | ⟨p, hp, hpi⟩
      · exact Or.inl (dictContains_dictSet_of _ _ _ _ h)
      · rcases List.mem_cons.mp hp with rfl | hp'
        · exact Or.inl (hpi ▸ dictContains_dictSet_self _ _ _)
        · exact Or.inr ⟨p, hp', hpi⟩

/-- A question of the batch that had no prediction before the
gap-filling loop ends up with its deterministic fallback answer and low
confidence (batch ids assumed distinct). -/
theorem fillMissing_fills :
    ∀ (qs : List Question) (acc : ParsedLLM) (q : Question),
      (qs.map Question.id).Nodup → q ∈ qs → dictContains acc.predictions q.id = false →
      dictGet? (fillMissing acc qs).predictions q.id = some (.str (fallbackAnswer q)) ∧
      dictGet? (fillMissing acc qs).confidence q.id = some "low" := by
  intro qs
  induction qs with
  | nil => intro acc q _ hq; exact absurd hq (List.not_mem_nil q)
  | cons q0 rest ih =>
    intro acc q hnd hq hc
    rcases batch_nodup_split q0 rest hnd with ⟨hnd0, hndr⟩
    rw [fillMissing_cons]
    rcases List.mem_cons.mp hq with rfl | hq'
    · rw [if_neg (by simp [hc])]
      have hrest : ∀ p ∈ rest, p.id ≠ q.id := hnd0
      rcases fillMissing_preserve q.id rest _ hrest with ⟨h1, h2⟩
      rw [h1, h2, dictGet?_dictSet_self, dictGet?_dictSet_self]
      exact ⟨rfl, rfl⟩
    · have hne : q.id ≠ q0.id := hnd0 q hq'
      by_cases hc0 : dictContains acc.predictions q0.id = true
      · rw [if_pos hc0]
        exact ih acc q hndr hq' hc
      · rw [if_neg (by simp [hc0])]
        refine ih _ q hndr hq' ?_
        show dictContains (dictSet acc.predictions q0.id (.str (fallbackAnswer q0))) q.id = false
        rw [dictContains_dictSet_ne _ _ _ _ hne]
        exact hc

/-- The error-path loop only touches the keys of the batch it walks. -/
theorem fillAllDefaults_preserve (i : String) :
    ∀ (qs : List Question) (acc : ParsedLLM), (∀ q ∈ qs, q.id ≠ i) →
      dictGet? (fillAllDefaults acc qs).predictions i = dictGet? acc.predictions i ∧
      dictGet? (fillAllDefaults acc qs).confidence i = dictGet? acc.confidence i := by
  intro qs
  induction qs with
  | nil => intro acc _; exact ⟨rfl, rfl⟩
  | cons q rest ih =>
    intro acc h
    have hqi : q.id ≠ i := h q (List.mem_cons_self q rest)
    have hni : i ≠ q.id := fun hh => hqi hh.symm
    have hrest : ∀ p ∈ rest, p.id ≠ i := fun p hp => h p (List.mem_cons_of_mem q hp)
    rw [fillAllDefaults_cons]
    rcases ih _ hrest with ⟨h1, h2⟩
    refine ⟨?_, ?_⟩
    · rw [h1]
      exact dictGet?_dictSet_ne _ _ _ _ hni
    · rw [h2]
      exact dictGet?_dictSet_ne _ _ _ _ hni

/-- On the error path every question of the batch ends up with its
deterministic fallback answer and low confidence (batch ids assumed
distinct). -/
theorem fillAllDefaults_fills :
    ∀ (qs : List Question) (acc : ParsedLLM) (q : Question),
      (qs.map Question.id).Nodup → q ∈ qs →
      dictGet? (fillAllDefaults acc qs).predictions q.id = some (.str (fallbackAnswer q)) ∧
      dictGet? (fillAllDefaults acc qs).confidence q.id = some "low" := by
  intro qs
  induction qs with
  | nil => intro acc q _ hq; exact absurd hq (List.not_mem_nil q)
  | cons q0 rest ih =>
    intro acc q hnd hq
    rcases batch_nodup_split q0 rest hnd with ⟨hnd0, hndr⟩
    rw [fillAllDefaults_cons]
    rcases List.mem_cons.mp hq with rfl | hq'
    · have hrest : ∀ p ∈ rest, p.id ≠ q.id := hnd0
      rcases fillAllDefaults_preserve q.id rest _ hrest with ⟨h1, h2⟩
      rw [h1, h2, dictGet?_dictSet_self, dictGet?_dictSet_self]
      exact ⟨rfl, rfl⟩
    · exact ih _ q hndr hq'

/-- Claim C8: for every batch of pending questions (with distinct ids)
and every collaborator response — incomplete, or unparseable (`none`) —
the parsed wave result has a prediction entry for every question of the
batch; a question the response omitted receives its first option's label
(the empty string when it has no options) as answer and low
confidence, and so does every question when the response could not be
parsed. -/
theorem claim_C8 (parsed : Option ParsedLLM) (questions : List Question)
    (hids : (questions.map Question.id).Nodup) :
    ∀ q ∈ questions,
      dictContains (parseBatchPredictionResponse parsed questions).predictions q.id = true ∧
      (∀ r, parsed = some r → dictContains r.predictions q.id = false →
        dictGet? (parseBatchPredictionResponse parsed questions).predictions q.id =
          some (.str (fallbackAnswer q)) ∧
        dictGet? (parseBatchPredictionResponse parsed questions).confidence q.id =
          some "low") ∧
      (parsed = none →
        dictGet? (parseBatchPredictionResponse parsed questions).predictions q.id =
          some (.str (fallbackAnswer q)) ∧
        dictGet? (parseBatchPredictionResponse parsed questions).confidence q.id =
          some "low") := by
  intro q hq
  refine ⟨?_, ?_, ?_⟩
  · cases parsed with
    | some r =>
      exact fillMissing_contains q.id questions r (Or.inr ⟨q, hq, rfl⟩)
    | none =>
      have h := fillAllDefaults_fills questions ⟨[], [], []⟩ q hids hq
      show dictContains (fillAllDefaults ⟨[], [], []⟩ questions).predictions q.id = true
      rw [dictContains_eq_isSome, h.1]
      rfl
  · intro r hr hc
    subst hr
    exact fillMissing_fills questions r q hids hq hc
  · intro hr
    subst hr
    exact fillAllDefaults_fills questions ⟨[], [], []⟩ q hids hq

/-- Witness for claim C8: an unparseable response over a one-question
batch fills the first option's label "No" with low confidence, and an
incomplete parsed response omitting the question does the same. -/
theorem claim_C8_witness :
    dictGet? (parseBatchPredictionResponse none demoBatch).predictions "Q" =
      some (Answer.str "No") ∧
    dictGet? (parseBatchPredictionResponse none demoBatch).confidence "Q" = some "low" ∧
    dictContains
      (parseBatchPredictionResponse (some ⟨[], [], []⟩) demoBatch).predictions "Q" = true := by
  have h := claim_C8 none demoBatch (by decide) demoChoiceQ (by decide)
  have h2 := claim_C8 (some ⟨[], [], []⟩) demoBatch (by decide) demoChoiceQ (by decide)
  exact ⟨(h.2.2 rfl).1, (h.2.2 rfl).2, h2.1⟩

/-- Dropping all but the last `n` elements is taking `n` from the
reversed list. -/
theorem drop_sub_eq_reverse_take {α : Type} (l : List α) (n : Nat) :
    l.drop (l.length - n) = (l.reverse.take n).reverse := by
  rw [show l.drop (l.length - n) = l.rtake n from rfl, List.rtake_eq_reverse_take_reverse]

/-- Taking all but the last `n` elements is dropping `n` from the
reversed list. -/
theorem take_sub_eq_reverse_drop {α : Type} (l : List α) (n : Nat) :
    l.take (l.length - n) = (l.reverse.drop n).reverse := by
  rw [show l.take (l.length - n) = l.rdrop n from rfl, List.rdrop_eq_reverse_drop_reverse]

/-- The compressed (single-tier) render of a non-empty section store
equals the spec's single-tier fallback, for any incoming context
string. -/
theorem compressContext_eq_oneTier (sections : List SectionData) (hne : sections ≠ [])
    (ctx : String) : compressContext sections ctx = specOneTierRender sections := by
  cases hrev : sections.reverse with
  | nil => exact absurd (List.reverse_eq_nil_iff.mp hrev) hne
  | cons lastS olderRev =>
    have hlast : sections.getLast? = some lastS := by
      rw [← List.head?_reverse, hrev]
      rfl
    have htake : sections.take (sections.length - 1) = olderRev.reverse := by
      rw [take_sub_eq_reverse_drop sections 1, hrev]
      rfl
    simp only [compressContext, specOneTierRender, hlast, hrev, htake]

/-- Claim C7: the rendered run context is the spec's two-tier render —
the most recent two finalized sections in full detail, all older ones as
one-line summaries — re-rendered with the single-tier fallback (only the
single most recent section in detail, every other reduced to its summary
line) exactly when the two-tier render exceeds 3000 characters; and every
line of a section's full detail is its header, a decision line (id and
answer), or a rationale line whose rationale is under 200 characters. -/
theorem claim_C7 (sections : List SectionData) (hne : sections ≠ []) :
    buildContextString sections =
      (if (specTwoTierRender sections).length > 3000 then specOneTierRender sections
       else specTwoTierRender sections) ∧
    (∀ (sd : SectionData) (line : String), line ∈ detailParts sd →
      line = "Section: " ++ sd.section_id ∨
      (∃ p ∈ sd.predictions, line = "- " ++ p.1 ++ ": " ++ answerToStr p.2) ∨
      (∃ r, r.length < 200 ∧ line = "  Reasoning: " ++ r)) := by
  constructor
  · have hcomp : ∀ ctx, compressContext sections ctx = specOneTierRender sections :=
      compressContext_eq_oneTier sections hne
    cases sections with
    | nil => exact absurd rfl hne
    | cons s ss =>
      have h2 : (s :: ss).drop ((s :: ss).length - 2) = ((s :: ss).reverse.take 2).reverse :=
        drop_sub_eq_reverse_take _ 2
      have h3 : (s :: ss).take ((s :: ss).length - 2) = ((s :: ss).reverse.drop 2).reverse :=
        take_sub_eq_reverse_drop _ 2
      simp only [buildContextString, specTwoTierRender, List.isEmpty_cons, Bool.false_eq_true,
        if_false, h2, h3, hcomp]
  · intro sd line hline
    simp only [detailParts, List.mem_cons, List.mem_flatten, List.mem_map] at hline
    rcases hline with rfl | ⟨block, ⟨p, hp, rfl⟩, hmem⟩
    · exact Or.inl rfl
    · rcases List.mem_cons.mp hmem with rfl | hrest
      · exact Or.inr (Or.inl ⟨p, hp, rfl⟩)
      · by_cases hcond : dictGetD sd.reasoning p.1 "" ≠ "" ∧
            (dictGetD sd.reasoning p.1 "").length < 200
        · rw [if_pos hcond] at hrest
          rcases List.mem_singleton.mp hrest with rfl
          exact Or.inr (Or.inr ⟨dictGetD sd.reasoning p.1 "", hcond.2, rfl⟩)
        · rw [if_neg hcond] at hrest
          exact absurd hrest (List.not_mem_nil line)

/-- The two-tier render of `demoLargeSections` exceeds the 3000-character
budget (its single large answer alone has 3500 characters). -/
theorem demoLargeRender_exceeds : (specTwoTierRender demoLargeSections).length > 3000 := by
  rw [show specTwoTierRender demoLargeSections =
      "[RECENT SECTIONS - Full Detail]" ++ "\n\n" ++
        ("Section: S1" ++ "\n" ++ ("- a: " ++ String.mk (List.replicate 3500 'w'))) ++ "\n\n" ++
        ("Section: S2" ++ "\n" ++ "- b: y") from rfl]
  simp only [String.length_append]
  rw [show (String.mk (List.replicate 3500 'w')).length = (List.replicate 3500 'w').length
      from rfl, List.length_replicate]
  decide

/-- Witness for claim C7: a three-section store under the 3000-character
budget renders as the two-tier form; a store whose two-tier render
exceeds 3000 characters renders as the single-tier fallback. -/
theorem claim_C7_witness :
    buildContextString demoSections =
      (if (specTwoTierRender demoSections).length > 3000 then specOneTierRender demoSections
       else specTwoTierRender demoSections) ∧
    buildContextString demoLargeSections = specOneTierRender demoLargeSections := by
  constructor
  · exact (claim_C7 demoSections (by simp [demoSections])).1
  · rw [(claim_C7 demoLargeSections (by simp [demoLargeSections])).1,
      if_pos demoLargeRender_exceeds]

/-- Unfolding of the wave loop at exhausted fuel with pending questions
left (ceiling exit). -/
theorem waveLoopAux_zero_pending (predict : PredictOracle) (allQ : List Question)
    (st : SecState) (hp : st.pending.isEmpty = false) :
    waveLoopAux predict allQ 0 st = (st, .ceiling) := by
  simp [waveLoopAux, hp]

/-- Unfolding of the wave loop at exhausted fuel with nothing pending. -/
theorem waveLoopAux_zero_empty (predict : PredictOracle) (allQ : List Question)
    (st : SecState) (hp : st.pending.isEmpty = true) :
    waveLoopAux predict allQ 0 st = (st, .emptyPending) := by
  simp [waveLoopAux, hp]

/-- Unfolding of the wave loop with fuel left and nothing pending. -/
theorem waveLoopAux_succ_empty (predict : PredictOracle) (allQ : List Question) (fuel : Nat)
    (st : SecState) (hp : st.pending.isEmpty = true) :
    waveLoopAux predict allQ (fuel + 1) st = (st, .emptyPending) := by
  simp [waveLoopAux, hp]

/-- Unfolding of the wave loop with fuel left when the wave reveals
nothing new (break). -/
theorem waveLoopAux_succ_noReveal (predict : PredictOracle) (allQ : List Question) (fuel : Nat)
    (st : SecState) (hp : st.pending.isEmpty = false)
    (hrev : (processWaveStep predict allQ st).2.isEmpty = true) :
    waveLoopAux predict allQ (fuel + 1) st = ((processWaveStep predict allQ st).1, .noReveal) := by
  simp [waveLoopAux, hp, hrev]

/-- Unfolding of the wave loop with fuel left when new questions were
revealed: increment the wave counter and iterate. -/
theorem waveLoopAux_succ_continue (predict : PredictOracle) (allQ : List Question) (fuel : Nat)
    (st : SecState) (hp : st.pending.isEmpty = false)
    (hrev : (processWaveStep predict allQ st).2.isEmpty = false) :
    waveLoopAux predict allQ (fuel + 1) st =
      waveLoopAux predict allQ fuel
        { (processWaveStep predict allQ st).1 with wave_number := st.wave_number + 1 } := by
  simp [waveLoopAux, hp, hrev]

/-- One wave step leaves the wave counter unchanged. -/
theorem processWaveStep_wave_number (predict : PredictOracle) (allQ : List Question)
    (st : SecState) : (processWaveStep predict allQ st).1.wave_number = st.wave_number := rfl

/-- One wave step increments the ghost iteration counter. -/
theorem processWaveStep_executed (predict : PredictOracle) (allQ : List Question)
    (st : SecState) : (processWaveStep predict allQ st).1.executed = st.executed + 1 := rfl

/-- One wave step appends one trace record. -/
theorem processWaveStep_trace (predict : PredictOracle) (allQ : List Question) (st : SecState) :
    (processWaveStep predict allQ st).1.trace =
      st.trace ++ [(st.wave_number, st.pending.map (fun q => q.id))] := rfl

/-- Invariant of the fuelled wave loop: entered with
`wave_number + fuel = maxWaves + 1`, `executed + 1 = wave_number` and a
trace of length `executed`, the loop (i) on a no-reveal break ends with
as many waves executed as the final counter, (ii) on a ceiling exit ends
with a non-empty pending set, the counter at `maxWaves + 1` and exactly
`maxWaves` waves executed, (iii) on an empty-pending exit ends with the
counter one above the executed count, and always executes at most
`maxWaves` waves, the trace recording one entry per executed wave. -/
theorem waveLoopAux_spec (predict : PredictOracle) (allQ : List Question) :
    ∀ (fuel : Nat) (st : SecState),
      st.wave_number + fuel = maxWaves + 1 →
      st.executed + 1 = st.wave_number →
      st.trace.length = st.executed →
      ((waveLoopAux predict allQ fuel st).2 = .noReveal →
          (waveLoopAux predict allQ fuel st).1.executed =
            (waveLoopAux predict allQ fuel st).1.wave_number) ∧
      ((waveLoopAux predict allQ fuel st).2 = .ceiling →
          (waveLoopAux predict allQ fuel st).1.pending.isEmpty = false ∧
          (waveLoopAux predict allQ fuel st).1.wave_number = maxWaves + 1 ∧
          (waveLoopAux predict allQ fuel st).1.executed = maxWaves) ∧
      ((waveLoopAux predict allQ fuel st).2 = .emptyPending →
          (waveLoopAux predict allQ fuel st).1.pending.isEmpty = true ∧
          (waveLoopAux predict allQ fuel st).1.executed + 1 =
            (waveLoopAux predict allQ fuel st).1.wave_number) ∧
      (waveLoopAux predict allQ fuel st).1.executed ≤ maxWaves ∧
      (waveLoopAux predict allQ fuel st).1.trace.length =
        (waveLoopAux predict allQ fuel st).1.executed := by
  intro fuel
  induction fuel with
  | zero =>
    intro st hf hx ht
    cases hp : st.pending.isEmpty with
    | true =>
      rw [waveLoopAux_zero_empty predict allQ st hp]
      refine ⟨fun h => by simp at h, fun h => by simp at h, fun _ => ⟨hp, hx⟩, ?_, ht⟩
      show st.executed ≤ maxWaves
      omega
    | false =>
      rw [waveLoopAux_zero_pending predict allQ st hp]
      refine ⟨fun h => by simp at h, fun _ => ⟨hp, ?_, ?_⟩, fun h => by simp at h, ?_, ht⟩
      · show st.wave_number = maxWaves + 1
        omega
      · show st.executed = maxWaves
        omega
      · show st.executed ≤ maxWaves
        omega
  | succ fuel ih =>
    intro st hf hx ht
    by_cases hp : st.pending.isEmpty = true
    · rw [waveLoopAux_succ_empty predict allQ fuel st hp]
      refine ⟨fun h => by simp at h, fun h => by simp at h, fun _ => ⟨hp, hx⟩, ?_, ht⟩
      show st.executed ≤ maxWaves
      omega
    · have hp' : st.pending.isEmpty = false := by
        cases hpe : st.pending.isEmpty
        · rfl
        · exact absurd hpe hp
      have he : (processWaveStep predict allQ st).1.executed = st.executed + 1 :=
        processWaveStep_executed predict allQ st
      have hw : (processWaveStep predict allQ st).1.wave_number = st.wave_number :=
        processWaveStep_wave_number predict allQ st
      have htr : (processWaveStep predict allQ st).1.trace.length = st.executed + 1 := by
        rw [processWaveStep_trace]
        simp [ht]
      by_cases hrev : (processWaveStep predict allQ st).2.isEmpty = true
      · rw [waveLoopAux_succ_noReveal predict allQ fuel st hp' hrev]
        refine ⟨fun _ => ?_, fun h => by simp at h, fun h => by simp at h, ?_, ?_⟩
        · show (processWaveStep predict allQ st).1.executed =
            (processWaveStep predict allQ st).1.wave_number
          omega
        · show (processWaveStep predict allQ st).1.executed ≤ maxWaves
          omega
        · show (processWaveStep predict allQ st).1.trace.length =
            (processWaveStep predict allQ st).1.executed
          omega
      · have hrev' : (processWaveStep predict allQ st).2.isEmpty = false := by
          cases hre : (processWaveStep predict allQ st).2.isEmpty
          · rfl
          · exact absurd hre hrev
        rw [waveLoopAux_succ_continue predict allQ fuel st hp' hrev']
        refine ih { (processWaveStep predict allQ st).1 with
            wave_number := st.wave_number + 1 } ?_ ?_ ?_
        · show st.wave_number + 1 + fuel = maxWaves + 1
          omega
        · show (processWaveStep predict allQ st).1.executed + 1 = st.wave_number + 1
          omega
        · show (processWaveStep predict allQ st).1.trace.length =
            (processWaveStep predict allQ st).1.executed
          omega

/-- Claim C4: the per-section wave loop terminates for every section
structure and every collaborator — including a cyclic reveal graph such
as A to B to A — and executes at most `maxWaves` (5) prediction waves:
the ghost iteration counter and the per-wave trace never exceed 5. -/
theorem claim_C4 (predict : PredictOracle) (allQ roots : List Question) :
    (runSectionWaves predict allQ roots).2.1.executed ≤ maxWaves ∧
    (runSectionWaves predict allQ roots).2.1.trace.length ≤ maxWaves := by
  have h := waveLoopAux_spec predict allQ (maxWaves + 1 - (initSecState roots).wave_number)
    (initSecState roots) rfl rfl rfl
  exact ⟨h.2.2.2.1, le_of_eq_of_le h.2.2.2.2 h.2.2.2.1⟩

/-- Claim C10: the `waves_executed` field of a section's result is the
final value of the wave counter, not the number of waves actually run:
when the loop ends by the no-new-reveals break it equals the number of
executed waves, but when it ends because the ceiling was exceeded with a
non-empty pending set it equals `maxWaves + 1` (6 by default) while only
`maxWaves` (5) waves ran. -/
theorem claim_C10 (predict : PredictOracle) (allQ roots : List Question) :
    (runSectionWaves predict allQ roots).1.waves_executed =
      (runSectionWaves predict allQ roots).2.1.wave_number ∧
    ((runSectionWaves predict allQ roots).2.2 = WaveExit.noReveal →
      (runSectionWaves predict allQ roots).1.waves_executed =
        (runSectionWaves predict allQ roots).2.1.executed) ∧
    ((runSectionWaves predict allQ roots).2.2 = WaveExit.ceiling →
      (runSectionWaves predict allQ roots).2.1.pending.isEmpty = false ∧
      (runSectionWaves predict allQ roots).1.waves_executed = maxWaves + 1 ∧
      (runSectionWaves predict allQ roots).2.1.executed = maxWaves) := by
  have h := waveLoopAux_spec predict allQ (maxWaves + 1 - (initSecState roots).wave_number)
    (initSecState roots) rfl rfl rfl
  refine ⟨rfl, ?_, ?_⟩
  · intro hex
    exact (h.1 hex).symm
  · intro hc
    exact h.2.1 hc

/-- Witness for claim C10: on the cyclic section R to A to B to A with a
collaborator answering Yes everywhere, the loop exits at the ceiling, so
`waves_executed` is reported as 6 while only 5 waves ran. -/
theorem claim_C10_witness :
    (runSectionWaves oracleYes cycleQuestions cycleRoots).1.waves_executed = 6 ∧
    (runSectionWaves oracleYes cycleQuestions cycleRoots).2.1.executed = 5 := by
  have h := claim_C10 oracleYes cycleQuestions cycleRoots
  have hc : (runSectionWaves oracleYes cycleQuestions cycleRoots).2.2 = WaveExit.ceiling := by
    decide
  exact ⟨(h.2.2 hc).2.1, (h.2.2 hc).2.2⟩

/-- Claim C1, counterexample: on the cyclic section R to A to B to A with
a collaborator answering Yes everywhere, question A is in the predicted
batch of wave 2 and again of wave 4 — the pending set handed to wave 4
contains the already-answered id A, so the loop does not remove answered
ids from the next pending set and an id is predicted twice within one
section. -/
theorem counterexample_C1 :
    (2, ["A"]) ∈ (runSectionWaves oracleYes cycleQuestions cycleRoots).2.1.trace ∧
    (4, ["A"]) ∈ (runSectionWaves oracleYes cycleQuestions cycleRoots).2.1.trace := by
  decide

/-- Claim C1 (corrected): after each wave the next pending set consists
of exactly the section questions whose id is in the id set returned by
`process_wave` — ids outside the section are dropped, but ids already
answered in the section are not removed, so (witnessed by the
counterexample) a question id can be predicted more than once within one
section. -/
theorem claim_C1 (predict : PredictOracle) (allQ : List Question) (st : SecState)
    (x : String) :
    x ∈ (processWaveStep predict allQ st).1.pending.map Question.id ↔
      (x ∈ processWave allQ (predict st.pending st.predictions).1 ∧
       x ∈ allQ.map Question.id) := by
  have hp : (processWaveStep predict allQ st).1.pending =
      allQ.filter
        (fun q => (processWave allQ (predict st.pending st.predictions).1).contains q.id) :=
    rfl
  rw [hp]
  simp only [List.mem_map, List.mem_filter]
  constructor
  · rintro ⟨q, ⟨hq, hcont⟩, rfl⟩
    exact ⟨by simpa using hcont, ⟨q, hq, rfl⟩⟩
  · rintro ⟨hxw, q, hq, rfl⟩
    exact ⟨q, ⟨hq, by simpa using hxw⟩, rfl⟩

/-- Unfolding of the outer section loop at a cancellation check that
fires: the loop stops with status cancelled and no further effects. -/
theorem runSectionLoop_cons_cancel
    {exec : Nat → SectionInfo → String → Except String SectionResultData}
    {cancelAt : Nat → Bool} {i : Nat} {info : SectionInfo} {rest : List SectionInfo}
    {st : RunState} (h : cancelAt i = true) :
    runSectionLoop exec cancelAt (info :: rest) i st =
      ({ st with status := "cancelled", cancelled := true }, []) := by
  simp [runSectionLoop, h]

/-- Unfolding of the outer section loop on a successful section:
accumulate its results and continue. -/
theorem runSectionLoop_cons_ok
    {exec : Nat → SectionInfo → String → Except String SectionResultData}
    {cancelAt : Nat → Bool} {i : Nat} {info : SectionInfo} {rest : List SectionInfo}
    {st : RunState} {r : SectionResultData} (h : cancelAt i = false)
    (hex : exec i info st.accumulated_context = .ok r) :
    runSectionLoop exec cancelAt (info :: rest) i st =
      ((runSectionLoop exec cancelAt rest (i + 1)
          { st with current_section := info.title
                    all_predictions := dictUpdateAll st.all_predictions r.predictions
                    all_reasoning := dictUpdateAll st.all_reasoning r.reasoning
                    all_rag_metadata := dictSet st.all_rag_metadata info.id r.rag_metadata
                    accumulated_context := r.updated_context
                    sections_completed := st.sections_completed + 1
                    predictions_made := st.predictions_made + r.predictions.length }).1,
        RunEffect.progressUpdate ("Processing " ++ info.title) st.sections_completed
            st.total_sections ::
          RunEffect.childSection info.id ::
          (runSectionLoop exec cancelAt rest (i + 1)
            { st with current_section := info.title
                      all_predictions := dictUpdateAll st.all_predictions r.predictions
                      all_reasoning := dictUpdateAll st.all_reasoning r.reasoning
                      all_rag_metadata := dictSet st.all_rag_metadata info.id r.rag_metadata
                      accumulated_context := r.updated_context
                      sections_completed := st.sections_completed + 1
                      predictions_made := st.predictions_made + r.predictions.length }).2) := by
  simp [runSectionLoop, h, hex]

/-- Unfolding of the outer section loop on a failing section: the
exception is absorbed, the section contributes nothing but a completed
count, and the loop continues. -/
theorem runSectionLoop_cons_error
    {exec : Nat → SectionInfo → String → Except String SectionResultData}
    {cancelAt : Nat → Bool} {i : Nat} {info : SectionInfo} {rest : List SectionInfo}
    {st : RunState} {msg : String} (h : cancelAt i = false)
    (hex : exec i info st.accumulated_context = .error msg) :
    runSectionLoop exec cancelAt (info :: rest) i st =
      ((runSectionLoop exec cancelAt rest (i + 1)
          { st with current_section := info.title
                    sections_completed := st.sections_completed + 1 }).1,
        RunEffect.progressUpdate ("Processing " ++ info.title) st.sections_completed
            st.total_sections ::
          RunEffect.childSection info.id ::
          (runSectionLoop exec cancelAt rest (i + 1)
            { st with current_section := info.title
                      sections_completed := st.sections_completed + 1 }).2) := by
  simp [runSectionLoop, h, hex]

/-- The section loop itself performs no result-persistence effect. -/
theorem runSectionLoop_no_persist
    (exec : Nat → SectionInfo → String → Except String SectionResultData)
    (cancelAt : Nat → Bool) :
    ∀ (sections : List SectionInfo) (i : Nat) (st : RunState),
      ∀ e ∈ (runSectionLoop exec cancelAt sections i st).2, e.isPersistCall = false := by
  intro sections
  induction sections with
  | nil =>
    intro i st e he
    exact absurd he (List.not_mem_nil e)
  | cons info rest ih =>
    intro i st e he
    by_cases hc : cancelAt i = true
    · rw [runSectionLoop_cons_cancel hc] at he
      exact absurd he (List.not_mem_nil e)
    · have hc' : cancelAt i = false := by
        cases hcc : cancelAt i
        · rfl
        · exact absurd hcc hc
      cases hex : exec i info st.accumulated_context with
      | ok r =>
        rw [runSectionLoop_cons_ok hc' hex] at he
        rcases List.mem_cons.mp he with rfl | he'
        · rfl
        · rcases List.mem_cons.mp he' with rfl | he''
          · rfl
          · exact ih (i + 1) _ e he''
      | error msg =>
        rw [runSectionLoop_cons_error hc' hex] at he
        rcases List.mem_cons.mp he with rfl | he'
        · rfl
        · rcases List.mem_cons.mp he' with rfl | he''
          · rfl
          · exact ih (i + 1) _ e he''

/-- Claim C9: (i) for every child-workflow behavior and cancellation
schedule, the run's effect trace is the section loop's effects followed
by exactly one result-persistence call — the persistence call is made
exactly once, after the section loop ends, whatever per-section failures
or cancellation occurred; and (ii) an exception in one section is
absorbed: the loop continues with the remaining sections and the failing
section contributes zero predictions (the accumulated predictions,
reasoning, metadata and context are untouched; only the completed-count
advances). -/
theorem claim_C9 (exec : Nat → SectionInfo → String → Except String SectionResultData)
    (cancelAt : Nat → Bool) (sections : List SectionInfo) :
    ((∃ pre, (runQuestionnaire exec cancelAt sections).2 =
        pre ++ [RunEffect.persistCall
            (runQuestionnaire exec cancelAt sections).1.all_predictions
            (runQuestionnaire exec cancelAt sections).1.accumulated_context] ∧
        ∀ e ∈ pre, e.isPersistCall = false) ∧
      ((runQuestionnaire exec cancelAt sections).2.filter
          (fun e => e.isPersistCall)).length = 1) ∧
    (∀ (i : Nat) (info : SectionInfo) (rest : List SectionInfo) (st : RunState) (msg : String),
      cancelAt i = false → exec i info st.accumulated_context = .error msg →
      runSectionLoop exec cancelAt (info :: rest) i st =
        ((runSectionLoop exec cancelAt rest (i + 1)
            { st with current_section := info.title
                      sections_completed := st.sections_completed + 1 }).1,
          RunEffect.progressUpdate ("Processing " ++ info.title) st.sections_completed
              st.total_sections ::
            RunEffect.childSection info.id ::
            (runSectionLoop exec cancelAt rest (i + 1)
              { st with current_section := info.title
                        sections_completed := st.sections_completed + 1 }).2)) := by
  have hnop := runSectionLoop_no_persist exec cancelAt sections 0
    (initRunState sections.length)
  constructor
  · constructor
    · exact ⟨(runSectionLoop exec cancelAt sections 0 (initRunState sections.length)).2,
        rfl, hnop⟩
    · show (((runSectionLoop exec cancelAt sections 0 (initRunState sections.length)).2 ++
          [RunEffect.persistCall _ _]).filter (fun e => e.isPersistCall)).length = 1
      rw [List.filter_append]
      rw [List.filter_eq_nil_iff.mpr (fun e he => by rw [hnop e he]; exact Bool.false_ne_true)]
      rfl
  · intro i info rest st msg hcan hex
    exact runSectionLoop_cons_error hcan hex

/-- Witness for claim C9: two sections of which the first raises; the
run performs exactly one persistence call and the final predictions are
exactly the successful second section's. -/
theorem claim_C9_witness :
    ((runQuestionnaire demoExec cancelNever demoSectionInfos).2.filter
        (fun e => e.isPersistCall)).length = 1 ∧
    (runSectionLoop demoExec cancelNever demoSectionInfos 0
        (initRunState 2)).1.all_predictions = [("b1", Answer.str "v")] := by
  refine ⟨(claim_C9 demoExec cancelNever demoSectionInfos).1.2, ?_⟩
  have h := (claim_C9 demoExec cancelNever demoSectionInfos).2 0
    { id := "S1", title := "T1" } [{ id := "S2", title := "T2" }] (initRunState 2) "boom"
    rfl rfl
  show (runSectionLoop demoExec cancelNever
      ({ id := "S1", title := "T1" } :: [{ id := "S2", title := "T2" }]) 0
      (initRunState 2)).1.all_predictions = [("b1", Answer.str "v")]
  rw [h]
  rfl

end RG
